import Mathlib

/-!
# Verification of the Cortex backend core

A shallow embedding, in Lean 4, of the data-access and provider-client core of
the Cortex personal-knowledge-base backend (`src/python-backend/src`):

* the `items` / `chunks` store and the repository operations over it
  (`src/db/repositories/items.py`, `src/db/repositories/chunks.py`);
* the Ollama provider client (`src/providers/ollama.py`);
* the health-check endpoint (`src/api/health.py`).

Timestamps are modelled as natural numbers (`datetime.now(UTC).isoformat()`
becomes an explicit `now : Nat` parameter; ISO round-tripping is the
identity).  Randomness (`uuid4`) is modelled by an explicit 128-bit input.
Fallible operations return `Except`.  SQL statements over the two tables are
modelled as list operations on an explicit `DB` state.
-/

namespace Cortex

/-- JSON objects as stored in the `metadata` column: a flat string-to-string
map suffices for the properties verified here (the code never inspects the
structure of `metadata`, it only serializes it on write). -/
def Json : Type := List (String × String)

instance : DecidableEq Json := by
  unfold Json
  infer_instance

instance : Membership (String × String) Json := by
  unfold Json
  infer_instance

/-- `json.dumps` on a flat object.  The claims only depend on this being some
fixed total serialization, never on the concrete bytes. -/
def jsonDumps (m : Json) : String :=
  "\x7b" ++ String.intercalate ", "
      (m.map (fun p => "\"" ++ p.1 ++ "\": \"" ++ p.2 ++ "\"")) ++ "\x7d"

/-- Python truthiness of a dict: `if data.metadata` is false for `None` and
for the empty dict. -/
def jsonTruthy : Option Json → Bool
  | none => false
  | some m => !(m.isEmpty)

/-- A row of the `items` table (`src/db/schema` / `src/db/models.py::Item`).
`metadata` is the serialized TEXT column. -/
structure ItemRow where
  id : String
  title : String
  content : String
  content_type : String
  source_url : Option String
  created_at : Nat
  updated_at : Nat
  processing_status : String
  metadata : Option String
deriving Repr, DecidableEq

/-- A row of the `chunks` table (`src/db/models.py::Chunk`). -/
structure ChunkRow where
  id : String
  item_id : String
  chunk_index : Nat
  content : String
  token_count : Option Nat
  created_at : Nat
deriving Repr, DecidableEq

/-- The persistent store: the two tables the repositories operate on. -/
structure DB where
  items : List ItemRow
  chunks : List ChunkRow
deriving Repr, DecidableEq

def emptyDB : DB := { items := [], chunks := [] }

/-- `src/db/models.py::ItemCreate`. -/
structure ItemCreate where
  title : String
  content : String
  content_type : String
  source_url : Option String := none
  metadata : Option Json := none

/-- `src/db/models.py::ItemUpdate`: all fields optional. -/
structure ItemUpdate where
  title : Option String := none
  content : Option String := none
  source_url : Option String := none
  metadata : Option Json := none

/-- `src/db/models.py::ChunkCreate`. -/
structure ChunkCreate where
  item_id : String
  chunk_index : Nat
  content : String
  token_count : Option Nat := none

/-- Typed repository errors (`src/exceptions.py`). -/
inductive RepoError where
  | itemNotFound (item_id : String)
  | databaseError (msg : String)
deriving Repr, DecidableEq

/-- `SELECT * FROM items WHERE id = ?` followed by `fetchone()`. -/
def itemGet (db : DB) (id : String) : Option ItemRow :=
  db.items.find? (fun r => r.id == id)

/-- `INSERT INTO items ... VALUES ...`. -/
def itemInsert (db : DB) (row : ItemRow) : DB :=
  { db with items := db.items ++ [row] }

namespace ItemRepository

/-- The row `ItemRepository.create` (src/db/repositories/items.py) builds:
`item_id` is `str(uuid4())`, `now` the single clock reading,
`created_at = updated_at = now`, `processing_status = "pending"`, and
`metadata` serialized only when truthy
(`json.dumps(data.metadata) if data.metadata else None`). -/
def createRow (item_id : String) (now : Nat) (data : ItemCreate) : ItemRow :=
  { id := item_id
    title := data.title
    content := data.content
    content_type := data.content_type
    source_url := data.source_url
    created_at := now
    updated_at := now
    processing_status := "pending"
    metadata := if jsonTruthy data.metadata then (data.metadata.map jsonDumps) else none }

/-- `ItemRepository.create`, continued: insert the row built by `createRow`,
commit, re-read it and fail with `DatabaseError` when the re-read finds
nothing. -/
def create (db : DB) (uuidStr : String) (now : Nat) (data : ItemCreate) :
    Except RepoError (ItemRow × DB) :=
  let db1 := itemInsert db (createRow uuidStr now data)
  match itemGet db1 uuidStr with
  | none => .error (.databaseError ("Failed to retrieve newly created item: " ++ uuidStr))
  | some r => .ok (r, db1)

/-- The row transformation performed by the `UPDATE items SET ... WHERE id = ?`
statement that `ItemRepository.update` builds: each non-None input field is
assigned, `metadata` is serialized, and `updated_at` is always set to `now`. -/
def applyUpdate (data : ItemUpdate) (now : Nat) (r : ItemRow) : ItemRow :=
  let r := match data.title with
    | some t => { r with title := t }
    | none => r
  let r := match data.content with
    | some c => { r with content := c }
    | none => r
  let r := match data.source_url with
    | some u => { r with source_url := some u }
    | none => r
  let r := match data.metadata with
    | some m => { r with metadata := some (jsonDumps m) }
    | none => r
  { r with updated_at := now }

/-- `ItemRepository.update` (src/db/repositories/items.py): raises
`ItemNotFoundError` when the row is absent; otherwise runs the built UPDATE
(`updates` is never empty since `updated_at` is always appended), re-reads and
returns the fresh row, failing with `DatabaseError` when the re-read finds
nothing. -/
def update (db : DB) (id : String) (now : Nat) (data : ItemUpdate) :
    Except RepoError (ItemRow × DB) :=
  match itemGet db id with
  | none => .error (.itemNotFound id)
  | some _ =>
    let db1 : DB :=
      { db with items := db.items.map (fun r => if r.id == id then applyUpdate data now r else r) }
    match itemGet db1 id with
    | none => .error (.databaseError ("Failed to retrieve updated item: " ++ id))
    | some r => .ok (r, db1)

/-- The four lifecycle values of `processing_status`
(`src/db/models.py::Item`, docstring of `ItemRepository.update_status`). -/
def validStatus (s : String) : Bool :=
  s == "pending" || s == "processing" || s == "completed" || s == "failed"

/-- Modelled from the spec: `schema.sql` is absent from `src/db` (only
`_apply_schema` reads it); per the spec's data model the `items` table
restricts `processing_status` to
`pending | processing | completed | failed`, so the store rejects an
`UPDATE items SET processing_status = ?` carrying any other value.  This is
the `execute` step of `update_status`: on an accepted value it rewrites the
matching row's status and `updated_at`; otherwise the statement fails. -/
def itemsSetStatus (db : DB) (id : String) (status : String) (now : Nat) :
    Except RepoError DB :=
  if validStatus status then
    .ok { db with items := db.items.map (fun r =>
            if r.id == id then { r with processing_status := status, updated_at := now } else r) }
  else
    .error (.databaseError ("CHECK constraint failed: processing_status " ++ status))

/-- `ItemRepository.update_status` (src/db/repositories/items.py): raises
`ItemNotFoundError` when the row is absent, otherwise sets
`processing_status` and `updated_at` through the store write. -/
def update_status (db : DB) (id : String) (now : Nat) (status : String) :
    Except RepoError DB :=
  match itemGet db id with
  | none => .error (.itemNotFound id)
  | some _ => itemsSetStatus db id status now

/-- `ItemRepository.delete` (src/db/repositories/items.py):
`DELETE FROM items WHERE id = ?`, returning `rowcount > 0`.
Modelled from the spec for the chunk side: `schema.sql` is absent from
`src/db`, and per the spec the `chunks` table declares a foreign key to
`items` with cascade delete, which `get_connection`
(src/db/database.py, `PRAGMA foreign_keys = ON`) activates — so deleting
item rows also deletes the chunks that referenced them. -/
def delete (db : DB) (id : String) : Bool × DB :=
  let matched := db.items.filter (fun r => r.id == id)
  let items1 := db.items.filter (fun r => r.id != id)
  let chunks1 :=
    if matched.isEmpty then db.chunks
    else db.chunks.filter (fun c => c.item_id != id)
  (!matched.isEmpty, { items := items1, chunks := chunks1 })

/-- `ItemRepository.count`: `SELECT COUNT(*) FROM items`. -/
def count (db : DB) : Nat := db.items.length

end ItemRepository

/-- Insertion (by `chunk_index`) used to model `ORDER BY chunk_index`. -/
def insertByIdx (c : ChunkRow) : List ChunkRow → List ChunkRow
  | [] => [c]
  | d :: ds => if c.chunk_index ≤ d.chunk_index then c :: d :: ds else d :: insertByIdx c ds

/-- Stable sort by `chunk_index`, modelling `ORDER BY chunk_index`. -/
def sortByIdx (l : List ChunkRow) : List ChunkRow :=
  l.foldr insertByIdx []

namespace ChunkRepository

/-- The row built for one `ChunkCreate` in `create_many`'s loop: fresh UUID,
all input fields copied, and the batch-shared `created_at`. -/
def mkChunkRow (chunk_id : String) (now : Nat) (c : ChunkCreate) : ChunkRow :=
  { id := chunk_id
    item_id := c.item_id
    chunk_index := c.chunk_index
    content := c.content
    token_count := c.token_count
    created_at := now }

/-- The loop body of `create_many`: one `INSERT INTO chunks ...` per input,
consuming one fresh UUID (`uuid k`, `uuid (k+1)`, ...) per iteration, every
row stamped with the single `now` taken before the loop. -/
def buildRows (uuid : Nat → String) (now : Nat) (k : Nat) :
    List ChunkCreate → List ChunkRow
  | [] => []
  | c :: cs => mkChunkRow (uuid k) now c :: buildRows uuid now (k + 1) cs

/-- `ChunkRepository.create_many` (src/db/repositories/chunks.py):
`if not chunks: return []` short-circuits before any statement runs;
otherwise one `now` is taken, the loop inserts each row with a fresh
`uuid4()`, and the accumulated `created_chunks` list is returned. -/
def create_many (db : DB) (uuid : Nat → String) (now : Nat)
    (chunks : List ChunkCreate) : List ChunkRow × DB :=
  if chunks.isEmpty then ([], db)
  else
    let rows := buildRows uuid now 0 chunks
    (rows, { db with chunks := db.chunks ++ rows })

/-- `ChunkRepository.get_by_item`:
`SELECT * FROM chunks WHERE item_id = ? ORDER BY chunk_index`. -/
def get_by_item (db : DB) (item_id : String) : List ChunkRow :=
  sortByIdx (db.chunks.filter (fun c => c.item_id == item_id))

/-- `ChunkRepository.delete_by_item`:
`DELETE FROM chunks WHERE item_id = ?`, returning `rowcount`. -/
def delete_by_item (db : DB) (item_id : String) : Nat × DB :=
  let remaining := db.chunks.filter (fun c => c.item_id != item_id)
  (db.chunks.length - remaining.length, { db with chunks := remaining })

/-- `ChunkRepository.count_by_item`:
`SELECT COUNT(*) FROM chunks WHERE item_id = ?`. -/
def count_by_item (db : DB) (item_id : String) : Nat :=
  (db.chunks.filter (fun c => c.item_id == item_id)).length

end ChunkRepository

/-! ## UUID generation (`uuid4()` / `str(uuid.UUID)`) -/

/-- The lowercase hex digit for `n % 16`. -/
def hexDigitChar (n : Nat) : Char :=
  ("0123456789abcdef".toList).getD (n % 16) '0'

/-- Is `c` a lowercase hex digit? -/
def isHexDigit (c : Char) : Bool :=
  ("0123456789abcdef".toList).contains c

/-- The `i`-th hex digit (from the most significant end) of the 128-bit
value `rnd`, `i < 32`. -/
def nibble (rnd i : Nat) : Nat :=
  (rnd / 16 ^ (31 - i)) % 16

/-- The `i`-th hex digit of `str(uuid4())` ignoring dashes: `uuid4` overwrites
the version nibble (hex index 12) with `4` and forces the variant nibble
(hex index 16) into `8..b`. -/
def uuidDigit (rnd i : Nat) : Char :=
  if i = 12 then '4'
  else if i = 16 then hexDigitChar (8 + nibble rnd i % 4)
  else hexDigitChar (nibble rnd i)

/-- Hex digits `lo, lo+1, ..., lo+len-1` of the UUID. -/
def uuidGroup (rnd lo len : Nat) : List Char :=
  (List.range len).map (fun j => uuidDigit rnd (lo + j))

/-- The 36 characters of `str(uuid4())`: the `8-4-4-4-12` hex groups joined
by dashes. -/
def uuid4chars (rnd : Nat) : List Char :=
  uuidGroup rnd 0 8 ++ '-' :: uuidGroup rnd 8 4 ++ '-' :: uuidGroup rnd 12 4
    ++ '-' :: uuidGroup rnd 16 4 ++ '-' :: uuidGroup rnd 20 12

/-- `str(uuid4())` for the 128-bit randomness `rnd`. -/
def uuid4str (rnd : Nat) : String :=
  String.mk (uuid4chars rnd)

/-- "36-character UUID-shaped" (spec §8): 32 hex digits in `8-4-4-4-12`
groups separated by dashes, with version digit `4`. -/
def uuidShaped (s : String) : Bool :=
  match s.toList with
  | c0 :: c1 :: c2 :: c3 :: c4 :: c5 :: c6 :: c7 :: '-' ::
    c9 :: c10 :: c11 :: c12 :: '-' ::
    c14 :: c15 :: c16 :: c17 :: '-' ::
    c19 :: c20 :: c21 :: c22 :: '-' ::
    c24 :: c25 :: c26 :: c27 :: c28 :: c29 :: c30 :: c31 :: c32 :: c33 :: c34 :: c35 :: [] =>
      ([c0, c1, c2, c3, c4, c5, c6, c7, c9, c10, c11, c12,
        c14, c15, c16, c17, c19, c20, c21, c22, c24, c25, c26,
        c27, c28, c29, c30, c31, c32, c33, c34, c35].all isHexDigit)
        && (c14 == '4')
  | _ => false

/-! ## Ollama provider client (`src/providers/ollama.py`) -/

/-- The configuration held by `OllamaProvider.__init__` (timeouts in
seconds, values irrelevant to the claims). -/
structure OllamaConfig where
  base_url : String
  embedding_model : String
  chat_model : String
  timeout : Nat
  embed_timeout : Nat
  availability_timeout : Nat

/-- The outcome of one outbound HTTP request, as distinguished by the
`except` clauses of the client: connection failure (`httpx.ConnectError`),
timeout (`httpx.TimeoutException`), or a response with a status code and a
parsed body. -/
inductive HttpOutcome (β : Type) where
  | connectError
  | timeout
  | response (status : Nat) (body : β)
deriving Repr, DecidableEq

/-- The parsed JSON body of an `/api/embeddings` response: the `embedding`
field may be absent (`data.get("embedding")`).  The element type of the
vector is irrelevant to the claims, so it is a parameter. -/
structure EmbedBody (V : Type) where
  embedding : Option V
deriving Repr, DecidableEq

/-- Failures an `OllamaProvider` call can surface (`src/exceptions.py`),
plus the `httpx.HTTPStatusError` that `raise_for_status()` raises — and the
client lets propagate uncaught — on any non-404 response outside the 2xx
success range. -/
inductive ProviderFailure (V : Type) where
  | notRunning (base_url : String)
  | modelNotFound (model : String)
  | timedOut (operation : String) (timeout : Nat)
  | apiResponse (operation : String) (model : String) (data : EmbedBody V)
  | httpStatus (status : Nat)
deriving Repr, DecidableEq

namespace OllamaProvider

/-- `OllamaProvider.is_available` (src/providers/ollama.py): GET
`/api/tags` with the availability timeout; `status_code == 200` on a
response; `False` on `ConnectError` / `TimeoutException`.  Total — the
function never raises. -/
def is_available {β : Type} (_cfg : OllamaConfig) (resp : HttpOutcome β) : Bool :=
  match resp with
  | .connectError => false
  | .timeout => false
  | .response status _ => status == 200

/-- `OllamaProvider.embed` (src/providers/ollama.py): POST
`/api/embeddings`; a 404 raises `OllamaModelNotFoundError(embedding_model)`;
`raise_for_status()` raises `httpx.HTTPStatusError` on any response outside
the 2xx success range (httpx raises for informational, redirect, client-error
and server-error responses alike), and that exception propagates uncaught;
on a 2xx response a missing `embedding` field raises
`OllamaAPIResponseError("embed", embedding_model, data)`; `ConnectError` /
`TimeoutException` become `OllamaNotRunningError(base_url)` /
`OllamaTimeoutError("embed", embed_timeout)`. -/
def embed {V : Type} (cfg : OllamaConfig) (resp : HttpOutcome (EmbedBody V)) :
    Except (ProviderFailure V) V :=
  match resp with
  | .connectError => .error (.notRunning cfg.base_url)
  | .timeout => .error (.timedOut "embed" cfg.embed_timeout)
  | .response status body =>
    if status = 404 then .error (.modelNotFound cfg.embedding_model)
    else if status < 200 ∨ 300 ≤ status then .error (.httpStatus status)
    else
      match body.embedding with
      | none => .error (.apiResponse "embed" cfg.embedding_model body)
      | some v => .ok v

/-- `OllamaProvider.embed_batch` (src/providers/ollama.py) instrumented with
its wire-level call trace: `wire` gives the outcome each text's `embed`
request would observe; the loop calls `embed` once per text in order,
appends on success, and lets the first failure propagate, so the second
component records exactly the texts for which an `embed` call was issued. -/
def embedBatchRun {V : Type} (cfg : OllamaConfig)
    (wire : String → HttpOutcome (EmbedBody V)) :
    List String → Except (ProviderFailure V) (List V) × List String
  | [] => (.ok [], [])
  | t :: ts =>
    match embed cfg (wire t) with
    | .error e => (.error e, [t])
    | .ok v =>
      match embedBatchRun cfg wire ts with
      | (.error e, calls) => (.error e, t :: calls)
      | (.ok vs, calls) => (.ok (v :: vs), t :: calls)

/-- The value `embed_batch` returns (or the failure it propagates). -/
def embed_batch {V : Type} (cfg : OllamaConfig)
    (wire : String → HttpOutcome (EmbedBody V)) (texts : List String) :
    Except (ProviderFailure V) (List V) :=
  (embedBatchRun cfg wire texts).1

end OllamaProvider

/-- Did the call succeed? -/
def exOk {ε α : Type} : Except ε α → Bool
  | .ok _ => true
  | .error _ => false

/-! ## Health endpoint (`src/api/health.py`) -/

/-- `src/db/models.py`-style component check record. -/
structure ComponentCheck where
  status : String
  latency_ms : Option Nat := none
  error : Option String := none
deriving Repr, DecidableEq

/-- `_check_database` (src/api/health.py): healthy with a measured latency
when `SELECT 1` succeeds, unhealthy with the error text otherwise. -/
def checkDatabase (dbOk : Bool) (latency : Nat) (errMsg : String) : ComponentCheck :=
  if dbOk then { status := "healthy", latency_ms := some latency }
  else { status := "unhealthy", error := some errMsg }

/-- The aggregation in `health_check` (src/api/health.py):
`all(... == "healthy")` / `any(... == "healthy")` over the registered
checks. -/
def overallStatus (checks : List ComponentCheck) : String :=
  if checks.all (fun c => c.status == "healthy") then "healthy"
  else if checks.any (fun c => c.status == "healthy") then "degraded"
  else "unhealthy"

/-- The transport code chosen by `health_check`: 200 exactly when the
overall status is `"healthy"`, else 503. -/
def healthStatusCode (overall : String) : Nat :=
  if overall == "healthy" then 200 else 503

/-- `health_check` (src/api/health.py) as shipped: the endpoint registers
only the `database` component check — it never probes the inference
provider, so `providerOk` (the provider's actual state, part of the
environment) is unused.  Returns the overall status and the HTTP code. -/
def health_check_src (dbOk providerOk : Bool) (latency : Nat) (errMsg : String) :
    String × Nat :=
  let checks := [checkDatabase dbOk latency errMsg]
  let overall := overallStatus checks
  (overall, healthStatusCode overall)

/-! ## Reachable states of the store -/

/-- The states of the store reachable through the repository operations,
starting from an empty store. -/
inductive Reachable : DB → Prop where
  | empty : Reachable emptyDB
  | createStep (db : DB) (uuidStr : String) (now : Nat) (data : ItemCreate)
      (r : ItemRow) (db1 : DB) :
      Reachable db → ItemRepository.create db uuidStr now data = .ok (r, db1) →
      Reachable db1
  | updateStep (db : DB) (id : String) (now : Nat) (data : ItemUpdate)
      (r : ItemRow) (db1 : DB) :
      Reachable db → ItemRepository.update db id now data = .ok (r, db1) →
      Reachable db1
  | updateStatusStep (db : DB) (id : String) (now : Nat) (status : String) (db1 : DB) :
      Reachable db → ItemRepository.update_status db id now status = .ok db1 →
      Reachable db1
  | deleteStep (db : DB) (id : String) :
      Reachable db → Reachable (ItemRepository.delete db id).2
  | createManyStep (db : DB) (uuid : Nat → String) (now : Nat) (cs : List ChunkCreate) :
      Reachable db → Reachable (ChunkRepository.create_many db uuid now cs).2
  | deleteByItemStep (db : DB) (item_id : String) :
      Reachable db → Reachable (ChunkRepository.delete_by_item db item_id).2

/-- The per-field contract of `update`: each provided (non-null) field of the
input is applied, each non-provided (null) field — and every column `update`
never touches — is byte-identical to the old row. -/
def UpdateApplied (data : ItemUpdate) (old new : ItemRow) : Prop :=
  new.id = old.id
    ∧ new.content_type = old.content_type
    ∧ new.created_at = old.created_at
    ∧ new.processing_status = old.processing_status
    ∧ new.title = data.title.getD old.title
    ∧ new.content = data.content.getD old.content
    ∧ new.source_url = (if data.source_url.isSome then data.source_url else old.source_url)
    ∧ new.metadata = (if data.metadata.isSome then data.metadata.map jsonDumps else old.metadata)

/-! ## Helper lemmas -/

/-- `applyUpdate` in closed form: each field of the result. -/
theorem applyUpdate_eq (d : ItemUpdate) (now : Nat) (r : ItemRow) :
    ItemRepository.applyUpdate d now r =
      { id := r.id
        title := d.title.getD r.title
        content := d.content.getD r.content
        content_type := r.content_type
        source_url := if d.source_url.isSome then d.source_url else r.source_url
        created_at := r.created_at
        updated_at := now
        processing_status := r.processing_status
        metadata := if d.metadata.isSome then d.metadata.map jsonDumps else r.metadata } := by
  obtain ⟨dt, dc, du, dm⟩ := d
  cases dt <;> cases dc <;> cases du <;> cases dm <;> rfl

theorem applyUpdate_id (d : ItemUpdate) (now : Nat) (r : ItemRow) :
    (ItemRepository.applyUpdate d now r).id = r.id := by
  rw [applyUpdate_eq]

theorem applyUpdate_processing_status (d : ItemUpdate) (now : Nat) (r : ItemRow) :
    (ItemRepository.applyUpdate d now r).processing_status = r.processing_status := by
  rw [applyUpdate_eq]

/-- Rewriting the rows matching `id` through an id-preserving `f` rewrites
what `find?` by `id` returns. -/
theorem find_map_when (l : List ItemRow) (id : String) (f : ItemRow → ItemRow)
    (hf : ∀ r, (f r).id = r.id) (e : ItemRow)
    (h : l.find? (fun r => r.id == id) = some e) :
    (l.map (fun r => if r.id == id then f r else r)).find? (fun r => r.id == id)
      = some (f e) := by
  induction l with
  | nil => simp at h
  | cons a l ih =>
    by_cases ha : (a.id == id) = true
    · have hh : List.find? (fun r => r.id == id) (a :: l) = some a :=
        List.find?_cons_of_pos _ ha
      rw [hh] at h
      injection h with h
      subst h
      simp only [List.map_cons, if_pos ha]
      have hfa : ((f a).id == id) = true := by rw [hf]; exact ha
      exact List.find?_cons_of_pos _ hfa
    · have hh : List.find? (fun r => r.id == id) (a :: l)
          = List.find? (fun r => r.id == id) l := List.find?_cons_of_neg _ ha
      rw [hh] at h
      simp only [List.map_cons, if_neg ha]
      have hh2 : List.find? (fun r => r.id == id)
            (a :: List.map (fun r => if (r.id == id) = true then f r else r) l)
          = List.find? (fun r => r.id == id)
            (List.map (fun r => if (r.id == id) = true then f r else r) l) :=
        List.find?_cons_of_neg _ ha
      rw [hh2]
      exact ih h

/-! ## The claims -/

/-- **C1.**  The claim: the health endpoint aggregates the registered
component checks (all healthy → `healthy`, some but not all → `degraded`,
none → `unhealthy`), and in particular storage-up / provider-down yields
`degraded` with HTTP 503.  The shipped `health_check` (src/api/health.py)
registers only the database check and never probes the provider: with the
database reachable and the provider down it answers `"healthy"` with
HTTP 200 — and its result does not depend on the provider state at all. -/
theorem health_check_src_ignores_provider :
    health_check_src true false 1 "boom" = ("healthy", 200)
      ∧ health_check_src true true 1 "boom" = health_check_src true false 1 "boom"
      ∧ health_check_src false true 1 "boom" = health_check_src false false 1 "boom" := by
  exact ⟨rfl, rfl, rfl⟩

/-- **C9.**  `is_available` is a total Boolean function of the probe's
outcome (it never raises): it returns `true` exactly when the probe came
back as a response with the success status 200 within the availability
timeout, and `false` on connection failure or timeout. -/
theorem is_available_characterization {β : Type} (cfg : OllamaConfig)
    (resp : HttpOutcome β) :
    (OllamaProvider.is_available cfg resp = true
        ↔ ∃ body, resp = HttpOutcome.response 200 body)
      ∧ OllamaProvider.is_available cfg (HttpOutcome.connectError (β := β)) = false
      ∧ OllamaProvider.is_available cfg (HttpOutcome.timeout (β := β)) = false := by
  refine ⟨?_, rfl, rfl⟩
  cases resp with
  | connectError => simp [OllamaProvider.is_available]
  | timeout => simp [OllamaProvider.is_available]
  | response status body =>
    simp only [OllamaProvider.is_available, beq_iff_eq]
    constructor
    · intro h
      subst h
      exact ⟨body, rfl⟩
    · rintro ⟨b, hb⟩
      cases hb
      rfl

/-- **C6.**  `embed`'s failure taxonomy: connection failure becomes
`OllamaNotRunningError(base_url)`, timeout becomes
`OllamaTimeoutError("embed", embed_timeout)`, a 404 response becomes
`OllamaModelNotFoundError(embedding_model)` naming the configured
embedding model, and an otherwise-successful response (2xx, the range
`raise_for_status()` lets through) whose body lacks the `embedding` field
becomes `OllamaAPIResponseError("embed", embedding_model, body)` naming both
the operation and the configured model. -/
theorem embed_error_taxonomy (V : Type) (cfg : OllamaConfig) :
    (OllamaProvider.embed cfg (HttpOutcome.connectError (β := EmbedBody V))
        = .error (.notRunning cfg.base_url))
      ∧ (OllamaProvider.embed cfg (HttpOutcome.timeout (β := EmbedBody V))
        = .error (.timedOut "embed" cfg.embed_timeout))
      ∧ (∀ body : EmbedBody V,
          OllamaProvider.embed cfg (HttpOutcome.response 404 body)
            = .error (.modelNotFound cfg.embedding_model))
      ∧ (∀ (status : Nat) (body : EmbedBody V),
          200 ≤ status → status < 300 → body.embedding = none →
          OllamaProvider.embed cfg (HttpOutcome.response status body)
            = .error (.apiResponse "embed" cfg.embedding_model body)) := by
  refine ⟨rfl, rfl, fun body => rfl, ?_⟩
  intro status body hlo hhi hnone
  have h404 : ¬(status = 404) := by omega
  have hnon2xx : ¬(status < 200 ∨ 300 ≤ status) := by omega
  simp [OllamaProvider.embed, h404, hnon2xx, hnone]

/-- For an existing row, `update` re-reads the row the UPDATE statement
produced. -/
theorem update_ok_eq (db : DB) (id : String) (now : Nat) (data : ItemUpdate)
    (existing r : ItemRow) (db1 : DB)
    (hget : itemGet db id = some existing)
    (hup : ItemRepository.update db id now data = .ok (r, db1)) :
    r = ItemRepository.applyUpdate data now existing
      ∧ db1 = { db with items := (db.items.map
          (fun row => if row.id == id then ItemRepository.applyUpdate data now row else row)) }
      ∧ itemGet db1 id = some r := by
  have hfind :
      itemGet { db with items := (db.items.map
          (fun row => if row.id == id then ItemRepository.applyUpdate data now row else row)) } id
        = some (ItemRepository.applyUpdate data now existing) :=
    find_map_when db.items id (ItemRepository.applyUpdate data now)
      (applyUpdate_id data now) existing hget
  simp only [ItemRepository.update, hget, hfind, Except.ok.injEq, Prod.mk.injEq] at hup
  obtain ⟨hr, hdb⟩ := hup
  subst hr
  subst hdb
  exact ⟨rfl, rfl, hfind⟩

/-- **C2.**  For every existing item and every update input, `update` applies
exactly the non-null input fields: every non-provided field other than
`updated_at` (including the columns `update` never touches) is byte-identical
in the stored row, `updated_at` is always set to the fresh clock reading —
so it strictly increases whenever the clock advanced past the stored
`updated_at`, even when no other field is provided — and the freshly
re-read record is what `update` returns. -/
theorem update_applies_exactly_nonnull
    (db : DB) (id : String) (now : Nat) (data : ItemUpdate)
    (existing r : ItemRow) (db1 : DB)
    (hget : itemGet db id = some existing)
    (hup : ItemRepository.update db id now data = .ok (r, db1)) :
    UpdateApplied data existing r
      ∧ r.updated_at = now
      ∧ (existing.updated_at < now → existing.updated_at < r.updated_at)
      ∧ itemGet db1 id = some r := by
  obtain ⟨hr, _hdb, hreread⟩ := update_ok_eq db id now data existing r db1 hget hup
  subst hr
  refine ⟨?_, ?_, ?_, hreread⟩
  · simp [UpdateApplied, applyUpdate_eq]
  · rw [applyUpdate_eq]
  · intro hlt
    rw [applyUpdate_eq]
    exact hlt

/-- **C2 witness**: a store holding one row, updated with an input whose only
provided field is `title`. -/
theorem update_applies_exactly_nonnull_witness :
    UpdateApplied ⟨some "T2", none, none, none⟩
        ⟨"i1", "T", "C", "note", some "http://s", 1, 2, "pending", none⟩
        ⟨"i1", "T2", "C", "note", some "http://s", 1, 7, "pending", none⟩
      ∧ (ItemRow.mk "i1" "T2" "C" "note" (some "http://s") 1 7 "pending" none).updated_at = 7
      ∧ ((2 : Nat) < 7 →
          (2 : Nat) < (ItemRow.mk "i1" "T2" "C" "note" (some "http://s") 1 7 "pending" none).updated_at)
      ∧ itemGet ⟨[⟨"i1", "T2", "C", "note", some "http://s", 1, 7, "pending", none⟩], []⟩ "i1"
          = some ⟨"i1", "T2", "C", "note", some "http://s", 1, 7, "pending", none⟩ :=
  update_applies_exactly_nonnull
    ⟨[⟨"i1", "T", "C", "note", some "http://s", 1, 2, "pending", none⟩], []⟩
    "i1" 7 ⟨some "T2", none, none, none⟩
    ⟨"i1", "T", "C", "note", some "http://s", 1, 2, "pending", none⟩
    ⟨"i1", "T2", "C", "note", some "http://s", 1, 7, "pending", none⟩
    ⟨[⟨"i1", "T2", "C", "note", some "http://s", 1, 7, "pending", none⟩], []⟩
    (by rfl) (by rfl)

/-- **C10.**  Because `update` treats a null field as "not provided", no
update input can clear `source_url` or `metadata`: whatever the input, if the
stored row had them non-null, the row `update` returns still has them
non-null. -/
theorem update_cannot_clear_optional_fields
    (db : DB) (id : String) (now : Nat) (data : ItemUpdate)
    (existing r : ItemRow) (db1 : DB)
    (hget : itemGet db id = some existing)
    (hup : ItemRepository.update db id now data = .ok (r, db1)) :
    (existing.source_url.isSome = true → r.source_url.isSome = true)
      ∧ (existing.metadata.isSome = true → r.metadata.isSome = true) := by
  obtain ⟨hr, _hdb, _hreread⟩ := update_ok_eq db id now data existing r db1 hget hup
  subst hr
  rw [applyUpdate_eq]
  constructor
  · intro hsome
    by_cases hu : data.source_url.isSome
    · simp [hu]
    · simpa [hu] using hsome
  · intro hsome
    by_cases hm : data.metadata.isSome
    · simp only [if_pos hm]
      simp [Option.isSome_map]
      exact hm
    · simpa [hm] using hsome

/-- **C10 witness**: an all-null update against a row with non-null
`source_url` and `metadata`. -/
theorem update_cannot_clear_optional_fields_witness :
    ((some "http://s" : Option String).isSome = true →
        (ItemRow.mk "i1" "T" "C" "note" (some "http://s") 1 7 "pending" (some "m")).source_url.isSome = true)
      ∧ ((some "m" : Option String).isSome = true →
        (ItemRow.mk "i1" "T" "C" "note" (some "http://s") 1 7 "pending" (some "m")).metadata.isSome = true) :=
  update_cannot_clear_optional_fields
    ⟨[⟨"i1", "T", "C", "note", some "http://s", 1, 2, "pending", some "m"⟩], []⟩
    "i1" 7 ⟨none, none, none, none⟩
    ⟨"i1", "T", "C", "note", some "http://s", 1, 2, "pending", some "m"⟩
    ⟨"i1", "T", "C", "note", some "http://s", 1, 7, "pending", some "m"⟩
    ⟨[⟨"i1", "T", "C", "note", some "http://s", 1, 7, "pending", some "m"⟩], []⟩
    (by rfl) (by rfl)

theorem isHexDigit_hexDigitChar (n : Nat) : isHexDigit (hexDigitChar n) = true := by
  unfold hexDigitChar
  generalize hg : n % 16 = k
  have hk : k < 16 := by rw [← hg]; exact Nat.mod_lt _ (by norm_num)
  interval_cases k <;> decide

theorem isHexDigit_uuidDigit (rnd i : Nat) : isHexDigit (uuidDigit rnd i) = true := by
  unfold uuidDigit
  by_cases h12 : i = 12
  · simp [h12]
    decide
  · by_cases h16 : i = 16
    · simp [h12, h16, isHexDigit_hexDigitChar]
    · simp [h12, h16, isHexDigit_hexDigitChar]

theorem uuid4str_length (rnd : Nat) : (uuid4str rnd).length = 36 := by
  show (uuid4chars rnd).length = 36
  simp [uuid4chars, uuidGroup]

theorem uuidShaped_uuid4str (rnd : Nat) : uuidShaped (uuid4str rnd) = true := by
  show uuidShaped (String.mk (uuid4chars rnd)) = true
  simp only [uuid4chars, uuidGroup,
    show List.range 8 = [0, 1, 2, 3, 4, 5, 6, 7] from rfl,
    show List.range 4 = [0, 1, 2, 3] from rfl,
    show List.range 12 = [0, 1, 2, 3, 4, 5, 6, 7, 8, 9, 10, 11] from rfl,
    List.map_cons, List.map_nil, List.cons_append, List.nil_append]
  norm_num
  simp [uuidShaped, String.toList, isHexDigit_uuidDigit, uuidDigit,
    isHexDigit_hexDigitChar, show isHexDigit '4' = true from by decide]

/-- Inserting a row whose id is absent makes that id readable. -/
theorem itemGet_insert (db : DB) (row : ItemRow)
    (h : itemGet db row.id = none) :
    itemGet (itemInsert db row) row.id = some row := by
  show (db.items ++ [row]).find? (fun r => r.id == row.id) = some row
  rw [List.find?_append]
  rw [show db.items.find? (fun r => r.id == row.id) = none from h]
  simp [List.find?]

/-- **C3.**  For every valid create input with a fresh UUID, the returned
item carries the freshly generated 36-character UUID-shaped id,
`processing_status = "pending"` and `created_at = updated_at` (both the
single clock reading); and `create`'s only failure is a `DatabaseError`,
raised exactly when the post-write re-read finds no row. -/
theorem create_spec (db : DB) (rnd now : Nat) (data : ItemCreate)
    (r : ItemRow) (db1 : DB)
    (hfresh : itemGet db (uuid4str rnd) = none)
    (hok : ItemRepository.create db (uuid4str rnd) now data = .ok (r, db1)) :
    r.id = uuid4str rnd
      ∧ (uuid4str rnd).length = 36
      ∧ uuidShaped (uuid4str rnd) = true
      ∧ r.processing_status = "pending"
      ∧ r.created_at = now
      ∧ r.updated_at = now
      ∧ (∀ (db2 : DB) (u : String) (n2 : Nat) (d2 : ItemCreate) (e : RepoError),
          ItemRepository.create db2 u n2 d2 = .error e →
            itemGet (itemInsert db2 (ItemRepository.createRow u n2 d2)) u = none
              ∧ e = .databaseError ("Failed to retrieve newly created item: " ++ u)) := by
  have hins : itemGet (itemInsert db (ItemRepository.createRow (uuid4str rnd) now data))
      (uuid4str rnd) = some (ItemRepository.createRow (uuid4str rnd) now data) :=
    itemGet_insert db (ItemRepository.createRow (uuid4str rnd) now data) hfresh
  simp only [ItemRepository.create, hins, Except.ok.injEq, Prod.mk.injEq] at hok
  obtain ⟨hr, _hdb⟩ := hok
  subst hr
  refine ⟨rfl, uuid4str_length rnd, uuidShaped_uuid4str rnd, rfl, rfl, rfl, ?_⟩
  intro db2 u n2 d2 e he
  simp only [ItemRepository.create] at he
  cases hre : itemGet (itemInsert db2 (ItemRepository.createRow u n2 d2)) u with
  | none =>
    rw [hre] at he
    simp only [Except.error.injEq] at he
    exact ⟨rfl, he.symm⟩
  | some row2 =>
    rw [hre] at he
    simp at he

/-- **C3 witness**: creating an item in the empty store with randomness 0. -/
theorem create_spec_witness :
    (ItemRow.mk "00000000-0000-4000-8000-000000000000" "T" "C" "note" none 5 5 "pending" none).id
        = uuid4str 0
      ∧ (uuid4str 0).length = 36
      ∧ uuidShaped (uuid4str 0) = true
      ∧ (ItemRow.mk "00000000-0000-4000-8000-000000000000" "T" "C" "note" none 5 5 "pending" none).processing_status
        = "pending"
      ∧ (ItemRow.mk "00000000-0000-4000-8000-000000000000" "T" "C" "note" none 5 5 "pending" none).created_at
        = 5
      ∧ (ItemRow.mk "00000000-0000-4000-8000-000000000000" "T" "C" "note" none 5 5 "pending" none).updated_at
        = 5
      ∧ (∀ (db2 : DB) (u : String) (n2 : Nat) (d2 : ItemCreate) (e : RepoError),
          ItemRepository.create db2 u n2 d2 = .error e →
            itemGet (itemInsert db2 (ItemRepository.createRow u n2 d2)) u = none
              ∧ e = .databaseError ("Failed to retrieve newly created item: " ++ u)) :=
  create_spec emptyDB 0 5 ⟨"T", "C", "note", none, none⟩
    ⟨"00000000-0000-4000-8000-000000000000", "T", "C", "note", none, 5, 5, "pending", none⟩
    ⟨[⟨"00000000-0000-4000-8000-000000000000", "T", "C", "note", none, 5, 5, "pending", none⟩], []⟩
    (by rfl) (by rfl)

/-- **C5.**  When `delete` succeeds on an item id, every chunk whose
`item_id` matches is removed by the cascade: `count_by_item` afterwards is
0, `get_by_item` afterwards is empty, and no surviving chunk references the
deleted id. -/
theorem delete_cascades (db : DB) (id : String) (ok : Bool) (db1 : DB)
    (hdel : ItemRepository.delete db id = (ok, db1)) (hok : ok = true) :
    ChunkRepository.count_by_item db1 id = 0
      ∧ ChunkRepository.get_by_item db1 id = []
      ∧ ∀ c ∈ db1.chunks, ¬(c.item_id = id) := by
  subst hok
  simp only [ItemRepository.delete, Prod.mk.injEq] at hdel
  obtain ⟨h1, h2⟩ := hdel
  have hne : (db.items.filter (fun r => r.id == id)).isEmpty = false := by
    simpa using h1
  rw [hne] at h2
  simp only [Bool.false_eq_true, if_false] at h2
  subst h2
  have hnil : (db.chunks.filter (fun c => c.item_id != id)).filter
      (fun c => c.item_id == id) = [] := by
    rw [List.filter_filter]
    refine List.filter_eq_nil_iff.mpr ?_
    intro c _hc
    cases h : c.item_id == id <;> simp [bne, h]
  refine ⟨?_, ?_, ?_⟩
  · show ((db.chunks.filter (fun c => c.item_id != id)).filter
        (fun c => c.item_id == id)).length = 0
    rw [hnil]
    rfl
  · show sortByIdx ((db.chunks.filter (fun c => c.item_id != id)).filter
        (fun c => c.item_id == id)) = []
    rw [hnil]
    rfl
  · intro c hc heq
    simp only [List.mem_filter, bne_iff_ne, ne_eq] at hc
    exact hc.2 heq

/-- **C5 witness**: deleting the only item of a one-item, one-chunk store. -/
theorem delete_cascades_witness :
    ChunkRepository.count_by_item ⟨[], []⟩ "i1" = 0
      ∧ ChunkRepository.get_by_item ⟨[], []⟩ "i1" = []
      ∧ ∀ c ∈ (DB.mk [] []).chunks, ¬(c.item_id = "i1") :=
  delete_cascades
    ⟨[⟨"i1", "T", "C", "note", none, 1, 1, "pending", none⟩],
      [⟨"c1", "i1", 0, "chunk text", none, 3⟩]⟩
    "i1" true ⟨[], []⟩ (by rfl) rfl

theorem buildRows_length (uuid : Nat → String) (now : Nat) :
    ∀ (cs : List ChunkCreate) (k : Nat),
      (ChunkRepository.buildRows uuid now k cs).length = cs.length := by
  intro cs
  induction cs with
  | nil => intro k; rfl
  | cons c cs ih =>
    intro k
    simp only [ChunkRepository.buildRows, List.length_cons, ih]

theorem buildRows_get (uuid : Nat → String) (now : Nat) :
    ∀ (cs : List ChunkCreate) (k i : Nat) (hi : i < cs.length)
      (hr : i < (ChunkRepository.buildRows uuid now k cs).length),
      (ChunkRepository.buildRows uuid now k cs).get ⟨i, hr⟩
        = ChunkRepository.mkChunkRow (uuid (k + i)) now (cs.get ⟨i, hi⟩) := by
  intro cs
  induction cs with
  | nil => intro k i hi hr; exact absurd hi (by simp)
  | cons c cs ih =>
    intro k i hi hr
    cases i with
    | zero => rfl
    | succ j =>
      have harith : k + 1 + j = k + (j + 1) := by omega
      have hj : j < cs.length := Nat.lt_of_succ_lt_succ hi
      have hr' : j < (ChunkRepository.buildRows uuid now (k + 1) cs).length := by
        rw [buildRows_length]; exact hj
      have step := ih (k + 1) j hj hr'
      rw [harith] at step
      exact step

theorem buildRows_map_id (uuid : Nat → String) (now : Nat) :
    ∀ (cs : List ChunkCreate) (k : Nat),
      (ChunkRepository.buildRows uuid now k cs).map (fun r => r.id)
        = (List.range' k cs.length).map uuid := by
  intro cs
  induction cs with
  | nil => intro k; rfl
  | cons c cs ih =>
    intro k
    rw [show (c :: cs).length = cs.length + 1 from rfl, List.range'_succ]
    simp only [ChunkRepository.buildRows, List.map_cons, ih]
    rfl

theorem buildRows_created_at (uuid : Nat → String) (now : Nat) :
    ∀ (cs : List ChunkCreate) (k : Nat) (r : ChunkRow),
      r ∈ ChunkRepository.buildRows uuid now k cs → r.created_at = now := by
  intro cs
  induction cs with
  | nil => intro k r hr; exact absurd hr (by simp [ChunkRepository.buildRows])
  | cons c cs ih =>
    intro k r hr
    rcases List.mem_cons.mp hr with h | h
    · rw [h]
      rfl
    · exact ih (k + 1) r h

/-- **C8.**  `create_many` on an empty input returns the empty list without
touching the store; on any input, the returned sequence mirrors the input
order and fields, every chunk of the batch gets the fresh UUID of its
position and they all share the single `created_at` instant; with an
injective UUID source the assigned ids are pairwise distinct. -/
theorem create_many_spec (db : DB) (uuid : Nat → String) (now : Nat)
    (cs : List ChunkCreate) :
    (cs.isEmpty = true → ChunkRepository.create_many db uuid now cs = ([], db))
      ∧ (ChunkRepository.create_many db uuid now cs).1.length = cs.length
      ∧ (∀ (i : Nat) (hi : i < cs.length)
          (hr : i < (ChunkRepository.create_many db uuid now cs).1.length),
          (ChunkRepository.create_many db uuid now cs).1.get ⟨i, hr⟩
            = ChunkRepository.mkChunkRow (uuid i) now (cs.get ⟨i, hi⟩))
      ∧ (∀ r ∈ (ChunkRepository.create_many db uuid now cs).1, r.created_at = now)
      ∧ (Function.Injective uuid →
          ((ChunkRepository.create_many db uuid now cs).1.map (fun r => r.id)).Nodup) := by
  cases cs with
  | nil =>
    refine ⟨fun _ => rfl, rfl, ?_, ?_, ?_⟩
    · intro i hi hr
      exact absurd hi (by simp)
    · intro r hr
      exact absurd hr (by simp [ChunkRepository.create_many])
    · intro _
      simp [ChunkRepository.create_many]
  | cons c cs' =>
    have hfst : (ChunkRepository.create_many db uuid now (c :: cs')).1
        = ChunkRepository.buildRows uuid now 0 (c :: cs') := rfl
    refine ⟨fun h => by simp at h, ?_, ?_, ?_, ?_⟩
    · rw [hfst, buildRows_length]
    · intro i hi hr
      have hr2 : i < (ChunkRepository.buildRows uuid now 0 (c :: cs')).length := hr
      have step := buildRows_get uuid now (c :: cs') 0 i hi hr2
      rw [Nat.zero_add] at step
      exact step
    · intro r hr
      rw [hfst] at hr
      exact buildRows_created_at uuid now (c :: cs') 0 r hr
    · intro hinj
      rw [hfst, buildRows_map_id]
      exact (List.nodup_range' 0 (c :: cs').length 1 (by norm_num)).map hinj

theorem embedBatchRun_snd_cons_ok {V : Type} (cfg : OllamaConfig)
    (wire : String → HttpOutcome (EmbedBody V)) (t : String) (ts : List String)
    (v : V) (he : OllamaProvider.embed cfg (wire t) = .ok v) :
    (OllamaProvider.embedBatchRun cfg wire (t :: ts)).2
      = t :: (OllamaProvider.embedBatchRun cfg wire ts).2 := by
  simp only [OllamaProvider.embedBatchRun, he]
  rcases hrec : OllamaProvider.embedBatchRun cfg wire ts with ⟨res, calls⟩
  cases res <;> rfl

theorem embedBatchRun_calls {V : Type} (cfg : OllamaConfig)
    (wire : String → HttpOutcome (EmbedBody V)) :
    ∀ texts : List String,
      (OllamaProvider.embedBatchRun cfg wire texts).2
        = texts.take
            (texts.findIdx (fun t => !(exOk (OllamaProvider.embed cfg (wire t)))) + 1) := by
  intro texts
  induction texts with
  | nil => rfl
  | cons t ts ih =>
    rw [List.findIdx_cons]
    cases he : OllamaProvider.embed cfg (wire t) with
    | error e =>
      have hsnd : (OllamaProvider.embedBatchRun cfg wire (t :: ts)).2 = [t] := by
        simp [OllamaProvider.embedBatchRun, he]
      rw [hsnd]
      simp [exOk]
    | ok v =>
      rw [embedBatchRun_snd_cons_ok cfg wire t ts v he, ih]
      simp [exOk]

theorem embedBatchRun_calls_all_ok {V : Type} (cfg : OllamaConfig)
    (wire : String → HttpOutcome (EmbedBody V)) :
    ∀ texts : List String,
      (∀ t ∈ texts, exOk (OllamaProvider.embed cfg (wire t)) = true) →
        (OllamaProvider.embedBatchRun cfg wire texts).2 = texts := by
  intro texts
  induction texts with
  | nil => intro _; rfl
  | cons t ts ih =>
    intro hall
    cases he : OllamaProvider.embed cfg (wire t) with
    | error e =>
      have := hall t (List.mem_cons_self t ts)
      rw [he] at this
      simp [exOk] at this
    | ok v =>
      rw [embedBatchRun_snd_cons_ok cfg wire t ts v he]
      rw [ih (fun s hs => hall s (List.mem_cons_of_mem t hs))]

theorem embedBatchRun_ok_get {V : Type} (cfg : OllamaConfig)
    (wire : String → HttpOutcome (EmbedBody V)) :
    ∀ (texts : List String) (vs : List V),
      (OllamaProvider.embedBatchRun cfg wire texts).1 = .ok vs →
        vs.length = texts.length
          ∧ ∀ (i : Nat) (hi : i < texts.length) (hv : i < vs.length),
              OllamaProvider.embed cfg (wire (texts.get ⟨i, hi⟩))
                = .ok (vs.get ⟨i, hv⟩) := by
  intro texts
  induction texts with
  | nil =>
    intro vs h
    simp only [OllamaProvider.embedBatchRun, Except.ok.injEq] at h
    subst h
    exact ⟨rfl, fun i hi hv => absurd hi (by simp)⟩
  | cons t ts ih =>
    intro vs h
    cases he : OllamaProvider.embed cfg (wire t) with
    | error e =>
      simp [OllamaProvider.embedBatchRun, he] at h
    | ok v =>
      rcases hrec : OllamaProvider.embedBatchRun cfg wire ts with ⟨res, calls⟩
      cases res with
      | error e2 =>
        simp [OllamaProvider.embedBatchRun, he, hrec] at h
      | ok vs2 =>
        simp only [OllamaProvider.embedBatchRun, he, hrec, Except.ok.injEq] at h
        subst h
        have hts : (OllamaProvider.embedBatchRun cfg wire ts).1 = .ok vs2 := by
          rw [hrec]
        obtain ⟨hlen, hget⟩ := ih vs2 hts
        refine ⟨by simp [hlen], ?_⟩
        intro i hi hv
        cases i with
        | zero => simpa using he
        | succ j =>
          have hj : j < ts.length := Nat.lt_of_succ_lt_succ hi
          have hvj : j < vs2.length := Nat.lt_of_succ_lt_succ hv
          simpa using hget j hj hvj

theorem embedBatchRun_error_mem {V : Type} (cfg : OllamaConfig)
    (wire : String → HttpOutcome (EmbedBody V)) :
    ∀ (texts : List String) (e : ProviderFailure V),
      (OllamaProvider.embedBatchRun cfg wire texts).1 = .error e →
        ∃ t ∈ texts, OllamaProvider.embed cfg (wire t) = .error e := by
  intro texts
  induction texts with
  | nil =>
    intro e h
    simp [OllamaProvider.embedBatchRun] at h
  | cons t ts ih =>
    intro e h
    cases he : OllamaProvider.embed cfg (wire t) with
    | error e1 =>
      simp only [OllamaProvider.embedBatchRun, he, Except.error.injEq] at h
      exact ⟨t, List.mem_cons_self t ts, by rw [he, h]⟩
    | ok v =>
      rcases hrec : OllamaProvider.embedBatchRun cfg wire ts with ⟨res, calls⟩
      cases res with
      | error e2 =>
        simp only [OllamaProvider.embedBatchRun, he, hrec, Except.error.injEq] at h
        obtain ⟨s, hs, hse⟩ := ih e (by rw [hrec, h])
        exact ⟨s, List.mem_cons_of_mem t hs, hse⟩
      | ok vs2 =>
        simp [OllamaProvider.embedBatchRun, he, hrec] at h

/-- **C7.**  `embed_batch` performs one `embed` call per text, sequentially
in input order: the instrumented run shows the calls issued are exactly the
input prefix up to and including the first failing text (all of them when
every call succeeds); on success the returned vectors are in input order,
one per text; the first failure propagates unchanged, and no call is made
for the texts after it. -/
theorem embed_batch_sequential (V : Type) (cfg : OllamaConfig)
    (wire : String → HttpOutcome (EmbedBody V)) (texts : List String) :
    (OllamaProvider.embed_batch cfg wire texts
        = (OllamaProvider.embedBatchRun cfg wire texts).1)
      ∧ ((OllamaProvider.embedBatchRun cfg wire texts).2
          = texts.take
              (texts.findIdx (fun t => !(exOk (OllamaProvider.embed cfg (wire t)))) + 1))
      ∧ ((∀ t ∈ texts, exOk (OllamaProvider.embed cfg (wire t)) = true) →
          (OllamaProvider.embedBatchRun cfg wire texts).2 = texts)
      ∧ (∀ vs, OllamaProvider.embed_batch cfg wire texts = .ok vs →
          vs.length = texts.length
            ∧ ∀ (i : Nat) (hi : i < texts.length) (hv : i < vs.length),
                OllamaProvider.embed cfg (wire (texts.get ⟨i, hi⟩))
                  = .ok (vs.get ⟨i, hv⟩))
      ∧ (∀ e, OllamaProvider.embed_batch cfg wire texts = .error e →
          ∃ t ∈ texts, OllamaProvider.embed cfg (wire t) = .error e) :=
  ⟨rfl, embedBatchRun_calls cfg wire texts, embedBatchRun_calls_all_ok cfg wire texts,
    fun vs h => embedBatchRun_ok_get cfg wire texts vs h,
    fun e h => embedBatchRun_error_mem cfg wire texts e h⟩

theorem create_many_items_unchanged (db : DB) (uuid : Nat → String) (now : Nat)
    (cs : List ChunkCreate) :
    (ChunkRepository.create_many db uuid now cs).2.items = db.items := by
  unfold ChunkRepository.create_many
  by_cases h : cs.isEmpty <;> simp [h]

/-- Every state reachable through the repository operations keeps
`processing_status` within the four lifecycle values. -/
theorem reachable_status_aux (db : DB) (h : Reachable db) :
    ∀ r ∈ db.items, ItemRepository.validStatus r.processing_status = true := by
  induction h with
  | empty =>
    intro r hr
    exact absurd hr (by simp [emptyDB])
  | createStep db0 u now data r1 db1 _hre hok ih =>
    intro r hr
    simp only [ItemRepository.create] at hok
    cases hre2 : itemGet (itemInsert db0 (ItemRepository.createRow u now data)) u with
    | none =>
      rw [hre2] at hok
      simp at hok
    | some row2 =>
      rw [hre2] at hok
      simp only [Except.ok.injEq, Prod.mk.injEq] at hok
      obtain ⟨_hr1, hdb⟩ := hok
      rw [← hdb] at hr
      rcases List.mem_append.mp hr with h1 | h1
      · exact ih r h1
      · have : r = ItemRepository.createRow u now data := by simpa using h1
        rw [this]
        rfl
  | updateStep db0 id now data r1 db1 _hre hok ih =>
    intro r hr
    cases hg : itemGet db0 id with
    | none =>
      simp [ItemRepository.update, hg] at hok
    | some ex =>
      obtain ⟨_hr1, hdb, _⟩ := update_ok_eq db0 id now data ex r1 db1 hg hok
      rw [hdb] at hr
      rcases List.mem_map.mp hr with ⟨r0, hr0, hmap⟩
      by_cases hc : (r0.id == id) = true
      · rw [if_pos hc] at hmap
        rw [← hmap, applyUpdate_processing_status]
        exact ih r0 hr0
      · rw [if_neg hc] at hmap
        rw [← hmap]
        exact ih r0 hr0
  | updateStatusStep db0 id now status db1 _hre hok ih =>
    intro r hr
    cases hg : itemGet db0 id with
    | none =>
      simp [ItemRepository.update_status, hg] at hok
    | some ex =>
      simp only [ItemRepository.update_status, hg] at hok
      unfold ItemRepository.itemsSetStatus at hok
      cases hv : ItemRepository.validStatus status with
      | false =>
        rw [hv] at hok
        simp at hok
      | true =>
        rw [hv] at hok
        simp only [if_true, Except.ok.injEq] at hok
        rw [← hok] at hr
        rcases List.mem_map.mp hr with ⟨r0, hr0, hmap⟩
        by_cases hc : (r0.id == id) = true
        · rw [if_pos hc] at hmap
          rw [← hmap]
          exact hv
        · rw [if_neg hc] at hmap
          rw [← hmap]
          exact ih r0 hr0
  | deleteStep db0 id _hre ih =>
    intro r hr
    have hmem : r ∈ db0.items.filter (fun q => q.id != id) := hr
    exact ih r (List.mem_filter.mp hmem).1
  | createManyStep db0 uuid now cs _hre ih =>
    intro r hr
    rw [create_many_items_unchanged] at hr
    exact ih r hr
  | deleteByItemStep db0 iid _hre ih =>
    intro r hr
    exact ih r hr

/-- **C4.**  In every reachable state of the store, every stored item's
`processing_status` is one of `pending | processing | completed | failed`:
`create` initializes it to `"pending"`, and `update_status` — the only
operation writing the column — keeps it within the four values (the
store-level constraint rejects any other value). -/
theorem reachable_processing_status_invariant (db : DB) (h : Reachable db) :
    db.items.all (fun r => ItemRepository.validStatus r.processing_status) = true
      ∧ ∀ (u : String) (n : Nat) (d : ItemCreate),
          (ItemRepository.createRow u n d).processing_status = "pending" := by
  refine ⟨?_, fun u n d => rfl⟩
  rw [List.all_eq_true]
  intro r hr
  exact reachable_status_aux db h r hr

/-- **C4 witness**: the invariant at the store reached by one `create`. -/
theorem reachable_processing_status_invariant_witness :
    (DB.mk [ItemRow.mk "00000000-0000-4000-8000-000000000000" "T" "C" "note" none 5 5 "pending" none]
        []).items.all (fun r => ItemRepository.validStatus r.processing_status) = true
      ∧ ∀ (u : String) (n : Nat) (d : ItemCreate),
          (ItemRepository.createRow u n d).processing_status = "pending" :=
  reachable_processing_status_invariant
    ⟨[⟨"00000000-0000-4000-8000-000000000000", "T", "C", "note", none, 5, 5, "pending", none⟩], []⟩
    (Reachable.createStep emptyDB "00000000-0000-4000-8000-000000000000" 5
      ⟨"T", "C", "note", none, none⟩
      ⟨"00000000-0000-4000-8000-000000000000", "T", "C", "note", none, 5, 5, "pending", none⟩
      ⟨[⟨"00000000-0000-4000-8000-000000000000", "T", "C", "note", none, 5, 5, "pending", none⟩], []⟩
      Reachable.empty (by rfl))

end Cortex
